import Mathlib

/-!
Verification development for the InfraX node agent (`infrax_node`).

The Python sources are shallowly embedded as pure Lean functions:

* `store.py` / `types.py`  → `NodeState`, `JobState`, `FileRec`, `AppDesc`,
  `JobRec`, `ResultRec`, and the machine state `M` (node state + filesystem +
  trace of coordinator-visible HTTP calls + a clock stream for `time.time()`).
* `crud.py`                → `set_node_state`, `set_job_state`, `get_app`,
  `add_app`, `remove_app`, `report_failed_app_install`,
  `report_failed_app_uninstall`, `upload_result`.  Each coordinator call
  appends an `Event` to the trace (the HTTP request is issued) and then
  either returns or raises, according to the outcome recorded in the
  environment `Env` (modelling `response.raise_for_status()`).
* `node.py`                → `download_files`, `upload_files`, `install_app`,
  `uninstall_app`, `run_job` (with `runTry` / `runExc` / `runFinally`
  mirroring the `try` / `except` / `finally` blocks of `run_job`).
* `main.py`                → `Web.install_app`, `Web.uninstall_app`,
  `Web.create_job`, each guarded by `fail_on_busy`.

Exceptions are modelled with `Except`: `.error` carries the machine state at
the moment the exception escapes the operation (the background thread dies,
the store keeps whatever was last written).  The filesystem is a pair of
path lists (directories, regular files) with paths as segment lists.
-/

/-- Model of `NodeState` from `types.py`. -/
inductive NodeState
  | BUSY
  | IDLE
deriving DecidableEq, Repr

/-- Model of `JobState` from `types.py`. -/
inductive JobState
  | CREATED
  | WORKING
  | FINISHING
  | FINISHED
deriving DecidableEq, Repr

/-- Model of `File` from `types.py` (the fields the node reads: id, name, optional
relative path).  `size` and `content_type` play no role in the engine. -/
structure FileRec where
  id : String
  name : String
  path : Option String := none
deriving DecidableEq, Repr

/-- The app descriptor returned by `crud.get_app` (the fields `install_app`
uses: `id` and `files`). -/
structure AppDesc where
  id : String
  files : List FileRec
deriving DecidableEq, Repr

/-- Model of `Job` from `types.py` (the fields `run_job` and `main.create_job` use:
`id`, `app_id`, `files`).  The `meta["kwargs"]` map only extends the
subprocess command line and has no observable effect in the model. -/
structure JobRec where
  id : String
  appId : String
  files : List FileRec := []
deriving DecidableEq, Repr

/-- Model of `Result` from `types.py`.  `execution_time` is `end_time - start_time`
(an integer stands in for the Python float of seconds). -/
structure ResultRec where
  job_id : String
  execution_time : Int
  success : Bool
  error : Option String
  output : String
  file_ids : List String
deriving DecidableEq, Repr

/-- Filesystem model: directory paths and regular-file paths, each a list of
segments.  `mkdir`/`writeFile` cons (duplicates are harmless: all queries go
through `any`), `rmtree` removes every path having the given prefix. -/
structure FS where
  dirs : List (List String)
  files : List (List String)
deriving DecidableEq, Repr

def FS.dirExists (fs : FS) (p : List String) : Bool :=
  fs.dirs.any (· == p)

def FS.fileExists (fs : FS) (p : List String) : Bool :=
  fs.files.any (· == p)

/-- Model of `Path.exists()`: true for a directory or a regular file. -/
def FS.pathExists (fs : FS) (p : List String) : Bool :=
  fs.dirExists p || fs.fileExists p

/-- Model of `Path.mkdir(exist_ok=True)`. -/
def FS.mkdir (fs : FS) (p : List String) : FS :=
  { fs with dirs := p :: fs.dirs }

/-- Model of `open(p, "wb").write(...)`. -/
def FS.writeFile (fs : FS) (p : List String) : FS :=
  { fs with files := p :: fs.files }

/-- Model of `shutil.rmtree(p)` / `rm -rf p`: drop every path under `p`. -/
def FS.rmtree (fs : FS) (p : List String) : FS :=
  { dirs := fs.dirs.filter (fun d => !(p.isPrefixOf d))
    files := fs.files.filter (fun f => !(p.isPrefixOf f)) }

/-- The regular files lying under directory `p`. -/
def FS.filesUnder (fs : FS) (p : List String) : List (List String) :=
  fs.files.filter (fun f => p.isPrefixOf f)

/-- Model of `Path.iterdir()` restricted to regular files: the immediate children of
`p` that are regular files.  (At the single call site, `output/` has just
been re-created and only regular files are ever written into it.) -/
def FS.listDirFiles (fs : FS) (p : List String) : List (List String) :=
  fs.files.filter (fun f => f.dropLast == p)

/-- One coordinator-visible HTTP request, in the order it is issued. -/
inductive Event
  | putNodeState (s : NodeState)
  | putJobState (jobId : String) (s : JobState)
  | postResult (r : ResultRec)
  | putAddApp (appId : String)
  | deleteRemoveApp (appId : String)
  | putAppError (appId : String) (error : String) (ty : String)
  | getAppQuery (appId : String)
  | getFile (fileId : String)
  | postFile
deriving DecidableEq, Repr

/-- Machine state threaded through an operation: the `Store.state` field,
the filesystem, the trace of issued coordinator requests, and the stream of
values `time.time()` will return. -/
structure M where
  store : NodeState
  fs : FS
  trace : List Event
  clock : List Nat
deriving DecidableEq, Repr

/-- Environment: all inputs and external outcomes of one operation run.
Each `...Ok` flag records whether the corresponding coordinator call passes
`raise_for_status` (false = the call raises); `downloadFails` gives the
per-file outcome of `GET /file/id`; the subprocess fields give the outcome
of the spawned processes. -/
structure Env where
  appRoot : List String
  fs0 : FS
  clock : List Nat
  app : AppDesc
  job : JobRec
  putStateOk : NodeState → Bool
  putJobStateOk : JobState → Bool
  getAppOk : Bool
  addAppOk : Bool
  removeAppOk : Bool
  reportInstallOk : Bool
  reportUninstallOk : Bool
  postResultOk : Bool
  downloadFails : String → Bool
  venvCreateRaises : Bool
  venvErrMsg : String
  pipRaises : Bool
  pipErrMsg : String
  rmRaises : Bool
  rmErrMsg : String
  exitCode : Int
  stdoutText : String
  stderrText : String
  producedOutputs : List String
  uploadPostRaises : Bool
  uploadAccepted : Bool
  assignedIds : List String

def initM (env : Env) : M :=
  { store := NodeState.IDLE, fs := env.fs0, trace := [], clock := env.clock }

/-- Model of `time.time()`: pop the next clock value. -/
def time_call (m : M) : Nat × M :=
  (m.clock.headD 0, { m with clock := m.clock.tail })

/-- Model of `crud.set_node_state`: `store.state` is assigned *before* the HTTP PUT,
so the local state changes even when `raise_for_status` then raises. -/
def set_node_state (env : Env) (s : NodeState) (m : M) : Except M M :=
  let m' : M := { m with store := s, trace := m.trace ++ [Event.putNodeState s] }
  if env.putStateOk s then .ok m' else .error m'

def set_node_busy (env : Env) (m : M) : Except M M :=
  set_node_state env NodeState.BUSY m

def set_node_idle (env : Env) (m : M) : Except M M :=
  set_node_state env NodeState.IDLE m

/-- Model of `crud.set_job_state`: mutate `job.state` locally (not tracked: only the
reported states matter), PUT the job, then `raise_for_status`. -/
def set_job_state (env : Env) (s : JobState) (m : M) : Except M M :=
  let m' : M := { m with trace := m.trace ++ [Event.putJobState env.job.id s] }
  if env.putJobStateOk s then .ok m' else .error m'

def set_job_finishing (env : Env) (m : M) : Except M M :=
  set_job_state env JobState.FINISHING m

def set_job_finished (env : Env) (m : M) : Except M M :=
  set_job_state env JobState.FINISHED m

/-- Model of `crud.get_app`: GraphQL query for the app descriptor;
`raise_for_status` may raise. -/
def get_app (env : Env) (appId : String) (m : M) : Except M (AppDesc × M) :=
  let m' : M := { m with trace := m.trace ++ [Event.getAppQuery appId] }
  if env.getAppOk then .ok (env.app, m') else .error m'

/-- Model of `crud.add_app`: `PUT /node/id/app/appId`. -/
def add_app (env : Env) (appId : String) (m : M) : Except M M :=
  let m' : M := { m with trace := m.trace ++ [Event.putAddApp appId] }
  if env.addAppOk then .ok m' else .error m'

/-- Model of `crud.remove_app`: `DELETE /node/id/app/appId`. -/
def remove_app (env : Env) (appId : String) (m : M) : Except M M :=
  let m' : M := { m with trace := m.trace ++ [Event.deleteRemoveApp appId] }
  if env.removeAppOk then .ok m' else .error m'

/-- Model of `crud.report_failed_app_install`: `PUT /app/appId` with
`AppErrorReportDTO(error, "INSTALL_ERROR")`. -/
def report_failed_app_install (env : Env) (appId msg : String) (m : M) : Except M M :=
  let m' : M := { m with trace := m.trace ++ [Event.putAppError appId msg "INSTALL_ERROR"] }
  if env.reportInstallOk then .ok m' else .error m'

/-- Model of `crud.report_failed_app_uninstall`: same DTO with type
`"UNINSTALL_ERROR"`. -/
def report_failed_app_uninstall (env : Env) (appId msg : String) (m : M) : Except M M :=
  let m' : M := { m with trace := m.trace ++ [Event.putAppError appId msg "UNINSTALL_ERROR"] }
  if env.reportUninstallOk then .ok m' else .error m'

/-- Model of `crud.upload_result`: `POST /job/id/result`. -/
def upload_result (env : Env) (r : ResultRec) (m : M) : Except M M :=
  let m' : M := { m with trace := m.trace ++ [Event.postResult r] }
  if env.postResultOk then .ok m' else .error m'

/-- The sequential write loop at the end of `download_files`:
`open(file_path / fle.name, "wb")` raises when the parent directory is
missing; writes made before a failure persist. -/
def writeDownloads (files : List FileRec) (path : List String) (m : M) :
    Except (String × M) M :=
  match files with
  | [] => .ok m
  | f :: rest =>
      let dir := match f.path with
        | some p => path ++ [p]
        | none => path
      if m.fs.dirExists dir then
        writeDownloads rest path { m with fs := m.fs.writeFile (dir ++ [f.name]) }
      else
        .error ("No such file or directory: " ++ f.name, m)

/-- Model of `node.download_files`: `thread_map` submits one `GET /file/id` task per
file up front via `ThreadPoolExecutor.map`, so every transfer runs to
completion regardless of failures in the others, and the first failure (in
list order) is re-raised when the results are collected — after which the
write loop runs over the responses. -/
def download_files (env : Env) (files : List FileRec) (path : List String) (m : M) :
    Except (String × M) M :=
  let m' : M := { m with trace := m.trace ++ files.map (fun f => Event.getFile f.id) }
  match files.find? (fun f => env.downloadFails f.id) with
  | some f => .error ("download failed: " ++ f.id, m')
  | none => writeDownloads files path m'

/-- The file-collection loop of `node.upload_files`.  The source guard is
`if not path.exists() and path.is_file(): continue` — `is_file()` is false
whenever the path does not exist, so the branch never fires; `open(path,
"rb")` then raises `FileNotFoundError` for a missing path. -/
def collectUploadFiles (fs : FS) (paths : List (List String)) :
    Except String (List (List String)) :=
  match paths with
  | [] => .ok []
  | p :: rest =>
      if !(fs.pathExists p) && fs.fileExists p then
        collectUploadFiles fs rest
      else if fs.fileExists p then
        match collectUploadFiles fs rest with
        | .ok l => .ok (p :: l)
        | .error e => .error e
      else
        .error ("No such file or directory: " ++ String.intercalate "/" p)

/-- Model of `node.upload_files`: build the multipart list (may raise on a missing
file), return `[]` when there is nothing to upload, otherwise POST all the
files in one request; a raising POST or a non-201 response is caught /
handled by returning `[]`. -/
def upload_files (env : Env) (paths : List (List String)) (m : M) :
    Except (String × M) (List String × M) :=
  match collectUploadFiles m.fs paths with
  | .error e => .error (e, m)
  | .ok opened =>
      if opened.isEmpty then .ok ([], m)
      else
        let m' : M := { m with trace := m.trace ++ [Event.postFile] }
        if env.uploadPostRaises then .ok ([], m')
        else if !env.uploadAccepted then .ok ([], m')
        else .ok (env.assignedIds, m')

/-- The `try` block of `node.install_app`: mkdir the app directory, create
the venv (`subprocess.run` raises only when the `python3.11` interpreter is
missing; on success the venv's `bin/python` appears), download the app
files, and pip-install `requirements.txt` when present (`subprocess.run`
raises only when spawning `pip` itself fails). -/
def installProvision (env : Env) (appPath : List String) (m : M) :
    Except (String × M) M :=
  let m1 : M := { m with fs := m.fs.mkdir appPath }
  if env.venvCreateRaises then .error (env.venvErrMsg, m1)
  else
    let fsv := (((m1.fs.mkdir (appPath ++ [".venv"])).mkdir
        (appPath ++ [".venv", "bin"])).writeFile
        (appPath ++ [".venv", "bin", "python"]))
    let m2 : M := { m1 with fs := fsv }
    match download_files env env.app.files appPath m2 with
    | .error e => .error e
    | .ok m3 =>
        if m3.fs.fileExists (appPath ++ ["requirements.txt"]) then
          if env.pipRaises then .error (env.pipErrMsg, m3) else .ok m3
        else .ok m3

/-- Model of `node.install_app`: set busy, fetch the descriptor (outside any
`try`!), short-circuit when the app directory already exists, otherwise run
the provisioning `try` block; any provisioning failure is caught and
reported, and the function always proceeds to `add_app` and
`set_node_idle`. -/
def install_app (env : Env) : Except M M :=
  match set_node_busy env (initM env) with
  | .error m => .error m
  | .ok m =>
  match get_app env env.app.id m with
  | .error m => .error m
  | .ok (app, m) =>
      let m1 : M := { m with fs := m.fs.mkdir env.appRoot }
      let appPath := env.appRoot ++ [app.id]
      if m1.fs.pathExists appPath then
        match add_app env app.id m1 with
        | .error m => .error m
        | .ok m => set_node_idle env m
      else
        match installProvision env appPath m1 with
        | .ok m2 =>
            match add_app env app.id m2 with
            | .error m => .error m
            | .ok m => set_node_idle env m
        | .error (msg, m2) =>
            match report_failed_app_install env app.id msg m2 with
            | .error m => .error m
            | .ok m3 =>
                match add_app env app.id m3 with
                | .error m => .error m
                | .ok m => set_node_idle env m

/-- Model of `node.uninstall_app`: set busy, no-op when the directory is absent,
otherwise `rm -rf` it (`subprocess.run` raises only if spawning `rm`
fails, in which case the handler falls back to `shutil.rmtree` and reports
the failure), then `remove_app` and `set_node_idle`. -/
def uninstall_app (env : Env) (appId : String) : Except M M :=
  match set_node_busy env (initM env) with
  | .error m => .error m
  | .ok m =>
      let m1 : M := { m with fs := m.fs.mkdir env.appRoot }
      let appPath := env.appRoot ++ [appId]
      if !(m1.fs.pathExists appPath) then set_node_idle env m1
      else
        let afterRm : Except (String × M) M :=
          if env.rmRaises then .error (env.rmErrMsg, m1)
          else .ok { m1 with fs := m1.fs.rmtree appPath }
        match afterRm with
        | .ok m2 =>
            match remove_app env appId m2 with
            | .error m => .error m
            | .ok m => set_node_idle env m
        | .error (msg, m2) =>
            let m3 : M := { m2 with fs := m2.fs.rmtree appPath }
            match report_failed_app_uninstall env appId msg m3 with
            | .error m => .error m
            | .ok m4 =>
                match remove_app env appId m4 with
                | .error m => .error m
                | .ok m => set_node_idle env m

/-- The Python locals of `run_job` that the `finally` block reads.
`success`, `error` and `file_ids` are `none` while unassigned — reading
them then raises `UnboundLocalError`. -/
structure Locals where
  start_time : Nat
  end_time : Nat
  proc : Option (Int × String × String)
  success : Option Bool
  error : Option (Option String)
  file_ids : Option (List String)
deriving DecidableEq, Repr

def Locals.init : Locals :=
  { start_time := 0
    end_time := 0
    proc := none
    success := none
    error := none
    file_ids := none }

/-- Outcome of the `try` block of `run_job`. -/
inductive TryOut
  | normal (l : Locals) (m : M)
  | earlyRet (l : Locals) (m : M)
  | exc (msg : String) (l : Locals) (m : M)
deriving Repr

/-- Steps 8 of `run_job`'s `try` block: ensure `output/` exists
(`output_path.mkdir(exist_ok=True)` when missing), enumerate
`output_path.iterdir()` and upload the files. -/
def ensureOutputAndUpload (env : Env) (l3 : Locals) (outputPath : List String)
    (m6 : M) : TryOut :=
  let m7 : M :=
    if m6.fs.pathExists outputPath then m6
    else { m6 with fs := m6.fs.mkdir outputPath }
  match upload_files env (m7.fs.listDirFiles outputPath) m7 with
  | .error (msg, m8) => .exc msg l3 m8
  | .ok (ids, m8) => .normal { l3 with file_ids := some ids } m8

/-- Steps 4–7 of `run_job`'s `try` block, after the input download: check
the venv entrypoint (raise `FileNotFoundError` when absent), record
`start_time`, spawn the subprocess (whose `main.py` writes the produced
outputs under `output/`), wait, record `end_time`, derive
`success`/`error` from the exit code, and report FINISHING. -/
def runAfterDownload (env : Env) (appPath outputPath : List String)
    (l : Locals) (m2 : M) : TryOut :=
  if !(m2.fs.fileExists (appPath ++ [".venv", "bin", "python"])) then
    .exc ".venv/bin/python does not exist" l m2
  else
    let (t1, m3) := time_call m2
    let l1 : Locals := { l with
      start_time := t1
      proc := some (env.exitCode, env.stdoutText, env.stderrText) }
    let m4 : M := { m3 with
      fs := env.producedOutputs.foldl
        (fun fs n => fs.writeFile (outputPath ++ [n])) m3.fs }
    let (t2, m5) := time_call m4
    let l2 : Locals := { l1 with end_time := t2 }
    let l3 : Locals :=
      if env.exitCode != 0 then
        { l2 with
          success := some false
          error := some (some ("Job failed with exit code " ++ toString env.exitCode)) }
      else
        { l2 with success := some true, error := some none }
    match set_job_finishing env m5 with
    | .error m6 => .exc "job state transport error" l3 m6
    | .ok m6 => ensureOutputAndUpload env l3 outputPath m6

/-- Step 3 of `run_job`'s `try` block: download the job's input files
(`job.files or []`) into `input/`, then continue with `runAfterDownload`. -/
def runTryDownloadStep (env : Env) (appPath inputPath outputPath : List String)
    (l : Locals) (m1 : M) : TryOut :=
  match download_files env env.job.files inputPath m1 with
  | .error (msg, m2) => .exc msg l m2
  | .ok m2 => runAfterDownload env appPath outputPath l m2

/-- The `try` block of `node.run_job`, line for line: missing-app early
return (after `crud.set_node_idle()`), reset of `input/` and `output/`,
then `runTryDownloadStep`. -/
def runTry (env : Env) (appPath inputPath outputPath : List String)
    (l : Locals) (m : M) : TryOut :=
  if !(m.fs.pathExists appPath) then
    match set_node_idle env m with
    | .ok m' => .earlyRet l m'
    | .error m' => .exc "node state transport error" l m'
  else
    let fs1 := (m.fs.rmtree inputPath).mkdir inputPath
    let fs2 := (fs1.rmtree outputPath).mkdir outputPath
    let m1 : M := { m with fs := fs2 }
    runTryDownloadStep env appPath inputPath outputPath l m1

/-- The `except Exception` handler of `run_job`: assign `success`, `error`,
`file_ids`, and take a fresh `time.time()` when `end_time` is still 0. -/
def runExc (msg : String) (l : Locals) (m : M) : Locals × M :=
  let l1 : Locals := { l with
    success := some false
    error := some (some msg)
    file_ids := some [] }
  if l1.end_time = 0 then
    let (t, m') := time_call m
    ({ l1 with end_time := t }, m')
  else (l1, m)

/-- Model of `process.stdout.read() if process and process.stdout else ""`. -/
def procStdout (l : Locals) : String :=
  match l.proc with
  | some (_, o, _) => o
  | none => ""

/-- Model of `process.stderr.read() if process and process.stderr else ""`. -/
def procStderr (l : Locals) : String :=
  match l.proc with
  | some (_, _, e) => e
  | none => ""

/-- The `finally` block of `run_job`: remove `input/` and `output/`, read
the captured process streams, build the `Result` — which raises
`UnboundLocalError` when `success`/`error`/`file_ids` were never assigned
(the missing-app early-return path) — then report the result, set the job
FINISHED, and set the node idle. -/
def runFinally (env : Env) (inputPath outputPath : List String)
    (l : Locals) (m : M) : Except M M :=
  let m1 : M := { m with fs := (m.fs.rmtree inputPath).rmtree outputPath }
  let output := procStdout l ++ "\n" ++ procStderr l
  match l.success, l.error, l.file_ids with
  | some succ, some err, some ids =>
      let r : ResultRec :=
        { job_id := env.job.id
          execution_time := (l.end_time : Int) - (l.start_time : Int)
          success := succ
          error := err
          output := output
          file_ids := ids }
      match upload_result env r m1 with
      | .error m => .error m
      | .ok m2 =>
          match set_job_finished env m2 with
          | .error m => .error m
          | .ok m3 => set_node_idle env m3
  | _, _, _ => .error m1

/-- Model of `node.run_job`: set busy, resolve the paths, run the `try` block, run
the `except` handler when it raised, and always run the `finally` block. -/
def run_job (env : Env) : Except M M :=
  match set_node_busy env (initM env) with
  | .error m => .error m
  | .ok m =>
      let m1 : M := { m with fs := m.fs.mkdir env.appRoot }
      let appPath := env.appRoot ++ [env.job.appId]
      let inputPath := appPath ++ ["input"]
      let outputPath := appPath ++ ["output"]
      let (l, m2) :=
        match runTry env appPath inputPath outputPath Locals.init m1 with
        | .normal l m' => (l, m')
        | .earlyRet l m' => (l, m')
        | .exc msg l m' => runExc msg l m'
      runFinally env inputPath outputPath l m2

/-- The request-facing store of `main.py` / `store.py`: node state, the
single job slot, and `store.app_ids` (the directory listing of the app
root, taken here as an input list). -/
structure WebStore where
  state : NodeState
  job : Option JobRec
  appIds : List String
deriving DecidableEq, Repr

/-- Background work spawned by a route handler (`Thread(...).start()`). -/
inductive WebEffect
  | spawnInstall (appId : String)
  | spawnUninstall (appId : String)
  | spawnRun (job : JobRec)
deriving DecidableEq, Repr

/-- Model of `main.fail_on_busy` (a FastAPI dependency, evaluated before the handler
body runs). -/
def fail_on_busy (st : WebStore) : Bool :=
  st.state == NodeState.BUSY

/-- Model of `POST /app/app_id` from `main.py`: 409 when busy, 409 when already
installed, else 200 and spawn the background install. -/
def Web.install_app (st : WebStore) (appId : String) :
    Nat × WebStore × List WebEffect :=
  if fail_on_busy st then (409, st, [])
  else if st.appIds.contains appId then (409, st, [])
  else (200, st, [WebEffect.spawnInstall appId])

/-- Model of `DELETE /app/app_id` from `main.py`: 409 when busy, 404 when not
installed, else 200 and spawn the background uninstall. -/
def Web.uninstall_app (st : WebStore) (appId : String) :
    Nat × WebStore × List WebEffect :=
  if fail_on_busy st then (409, st, [])
  else if !(st.appIds.contains appId) then (404, st, [])
  else (200, st, [WebEffect.spawnUninstall appId])

/-- Model of `POST /job` from `main.py`: 409 when busy, 404 when the job's app is
not installed, else store the job, spawn the background run, 201. -/
def Web.create_job (st : WebStore) (job : JobRec) :
    Nat × WebStore × List WebEffect :=
  if fail_on_busy st then (409, st, [])
  else if !(st.appIds.contains job.appId) then (404, st, [])
  else (201, { st with job := some job }, [WebEffect.spawnRun job])

/-- Observers. -/
def finalM : Except M M → M
  | .ok m => m
  | .error m => m

def finalE {α : Type} : Except (String × M) α → (α ⊕ String × M)
  | .ok a => Sum.inl a
  | .error e => Sum.inr e

def okE : Except M M → Bool
  | .ok _ => true
  | .error _ => false

def errU {α : Type} : Except (String × M) α → Bool
  | .ok _ => false
  | .error _ => true

/-- The job states reported to the coordinator, in order. -/
def jobReports (tr : List Event) : List JobState :=
  tr.filterMap fun e => match e with
    | Event.putJobState _ s => some s
    | _ => none

/-- The file downloads issued, in order. -/
def getFileEvents (tr : List Event) : List String :=
  tr.filterMap fun e => match e with
    | Event.getFile i => some i
    | _ => none

/-- The results posted, in order. -/
def resultsPosted (tr : List Event) : List ResultRec :=
  tr.filterMap fun e => match e with
    | Event.postResult r => some r
    | _ => none

/-- All coordinator transports succeed (every `raise_for_status` passes). -/
def transportOk (env : Env) : Bool :=
  env.putStateOk NodeState.BUSY && env.putStateOk NodeState.IDLE &&
  env.putJobStateOk JobState.FINISHING && env.putJobStateOk JobState.FINISHED &&
  env.getAppOk && env.addAppOk && env.removeAppOk &&
  env.reportInstallOk && env.reportUninstallOk && env.postResultOk

/-- The app directory of the job is missing when `run_job` checks it. -/
def appMissing (env : Env) : Bool :=
  !((env.fs0.mkdir env.appRoot).pathExists (env.appRoot ++ [env.job.appId]))

/-- The machine state carried by either outcome of a file-transfer call. -/
def outDM : Except (String × M) M → M
  | .ok m => m
  | .error (_, m) => m


/-- The machine state of `install_app` right after admission and the
`crud.get_app` call, before the already-installed check. -/
def installAdmitted (env : Env) : M :=
  { store := NodeState.BUSY
    fs := env.fs0.mkdir env.appRoot
    trace := [Event.putNodeState NodeState.BUSY, Event.getAppQuery env.app.id]
    clock := env.clock }

/-- Concrete test fixtures used by the witnesses and counterexamples. -/
def fsApp1 : FS :=
  { dirs := [["r"], ["r", "a"]], files := [["r", "a", ".venv", "bin", "python"]] }

def fsAppNoVenv : FS :=
  { dirs := [["r"], ["r", "a"]], files := [] }

def env0 : Env :=
  { appRoot := ["r"]
    fs0 := { dirs := [], files := [] }
    clock := [10, 25]
    app := { id := "a", files := [] }
    job := { id := "j", appId := "a", files := [] }
    putStateOk := fun _ => true
    putJobStateOk := fun _ => true
    getAppOk := true
    addAppOk := true
    removeAppOk := true
    reportInstallOk := true
    reportUninstallOk := true
    postResultOk := true
    downloadFails := fun _ => false
    venvCreateRaises := false
    venvErrMsg := "venv boom"
    pipRaises := false
    pipErrMsg := "pip boom"
    rmRaises := false
    rmErrMsg := "rm boom"
    exitCode := 0
    stdoutText := "out"
    stderrText := "err"
    producedOutputs := ["o.txt"]
    uploadPostRaises := false
    uploadAccepted := true
    assignedIds := ["f9"] }

def envInstalled : Env := { env0 with fs0 := fsApp1 }

def envGetAppFails : Env := { env0 with getAppOk := false }

def envVenvRaises : Env := { env0 with venvCreateRaises := true }

def envVenvMissing : Env := { env0 with fs0 := fsAppNoVenv }

def envDl : Env := { env0 with downloadFails := fun i => i == "f1" }

def dl2 : List FileRec := [{ id := "f1", name := "a.txt" }, { id := "f2", name := "b.txt" }]

def m9 : M := { store := NodeState.BUSY, fs := fsApp1, trace := [], clock := [] }

def mProv : M :=
  { store := NodeState.BUSY
    fs := { dirs := [["r", "a"], ["r"]], files := [] }
    trace := [Event.putNodeState NodeState.BUSY, Event.getAppQuery "a"]
    clock := [10, 25] }

def stBusy : WebStore := { state := NodeState.BUSY, job := none, appIds := ["a"] }

def stIdleWithJob : WebStore :=
  { state := NodeState.IDLE, job := some { id := "old", appId := "a" }, appIds := ["a"] }

def jobNew : JobRec := { id := "new", appId := "a" }

/-! ### List and filesystem helper lemmas -/

lemma any_beq_of_mem {α : Type} [BEq α] [LawfulBEq α] {l : List α} {q : α}
    (h : q ∈ l) : l.any (· == q) = true :=
  List.any_eq_true.mpr ⟨q, h, beq_self_eq_true q⟩

lemma mem_of_any_beq {α : Type} [BEq α] [LawfulBEq α] {l : List α} {q : α}
    (h : l.any (· == q) = true) : q ∈ l := by
  obtain ⟨x, hx, hbeq⟩ := List.any_eq_true.mp h
  exact (eq_of_beq hbeq) ▸ hx

lemma any_beq_filter_of_pred {α : Type} [BEq α] [LawfulBEq α]
    {l : List α} {P : α → Bool} {q : α} (h : P q = true) :
    (l.filter P).any (· == q) = l.any (· == q) := by
  induction l with
  | nil => rfl
  | cons a t ih =>
      by_cases haq : a == q
      · have ha : a = q := eq_of_beq haq
        subst ha
        simp [List.filter_cons, h, List.any_cons]
      · cases hpa : P a with
        | false => simp [List.filter_cons, hpa, List.any_cons, haq, ih]
        | true => simp [List.filter_cons, hpa, List.any_cons, haq, ih]

lemma isPrefixOf_append_same (xs ys zs : List String) :
    (xs ++ ys).isPrefixOf (xs ++ zs) = ys.isPrefixOf zs := by
  induction xs with
  | nil => rfl
  | cons a t ih => simp [List.isPrefixOf, ih]

lemma isPrefixOf_append_self (xs ys : List String) :
    xs.isPrefixOf (xs ++ ys) = true := by
  have h := isPrefixOf_append_same xs [] ys
  rw [List.append_nil] at h
  rw [h]
  simp [List.isPrefixOf]

lemma FS.fileExists_rmtree {fs : FS} {p q : List String}
    (h : p.isPrefixOf q = false) :
    (fs.rmtree p).fileExists q = fs.fileExists q := by
  simp only [FS.rmtree, FS.fileExists]
  exact any_beq_filter_of_pred (by simp [h])

lemma FS.dirExists_rmtree {fs : FS} {p q : List String}
    (h : p.isPrefixOf q = false) :
    (fs.rmtree p).dirExists q = fs.dirExists q := by
  simp only [FS.rmtree, FS.dirExists]
  exact any_beq_filter_of_pred (by simp [h])

lemma FS.fileExists_mkdir (fs : FS) (p q : List String) :
    (fs.mkdir p).fileExists q = fs.fileExists q := rfl

lemma FS.dirs_writeFile (fs : FS) (p : List String) :
    (fs.writeFile p).dirs = fs.dirs := rfl

lemma FS.dirExists_mkdir_self (fs : FS) (p : List String) :
    (fs.mkdir p).dirExists p = true := by
  simp [FS.mkdir, FS.dirExists, List.any_cons]

lemma filter_filter_not_nil {α : Type} (l : List α) (P : α → Bool) :
    ((l.filter fun a => !(P a)).filter P) = [] := by
  induction l with
  | nil => rfl
  | cons a t ih =>
      cases hpa : P a with
      | false => simp [List.filter_cons, hpa, ih]
      | true => simp [List.filter_cons, hpa, ih]

lemma filter_of_filter_nil {α : Type} {l : List α} {P Q : α → Bool}
    (h : l.filter P = []) : (l.filter Q).filter P = [] := by
  induction l with
  | nil => rfl
  | cons a t ih =>
      rw [List.filter_cons] at h
      cases hpa : P a with
      | true => simp [hpa] at h
      | false =>
          simp only [hpa] at h
          simp only [Bool.false_eq_true, if_false] at h
          cases hqa : Q a with
          | false => simp [List.filter_cons, hqa, ih h]
          | true => simp [List.filter_cons, hqa, hpa, ih h]

lemma FS.filesUnder_rmtree_self (fs : FS) (p : List String) :
    (fs.rmtree p).filesUnder p = [] := by
  simp only [FS.rmtree, FS.filesUnder]
  exact filter_filter_not_nil fs.files (fun f => p.isPrefixOf f)

lemma FS.filesUnder_rmtree_of_nil {fs : FS} {p : List String} (q : List String)
    (h : fs.filesUnder p = []) : (fs.rmtree q).filesUnder p = [] := by
  simp only [FS.rmtree, FS.filesUnder] at h ⊢
  exact filter_of_filter_nil h

/-! ### Trace observer lemmas -/

lemma jobReports_append (t1 t2 : List Event) :
    jobReports (t1 ++ t2) = jobReports t1 ++ jobReports t2 := by
  simp [jobReports, List.filterMap_append]

lemma resultsPosted_append (t1 t2 : List Event) :
    resultsPosted (t1 ++ t2) = resultsPosted t1 ++ resultsPosted t2 := by
  simp [resultsPosted, List.filterMap_append]

lemma getFileEvents_append (t1 t2 : List Event) :
    getFileEvents (t1 ++ t2) = getFileEvents t1 ++ getFileEvents t2 := by
  simp [getFileEvents, List.filterMap_append]

lemma jobReports_map_getFile (files : List FileRec) :
    jobReports (files.map fun f => Event.getFile f.id) = [] := by
  induction files with
  | nil => rfl
  | cons f t ih => simp [jobReports, ih]

lemma resultsPosted_map_getFile (files : List FileRec) :
    resultsPosted (files.map fun f => Event.getFile f.id) = [] := by
  induction files with
  | nil => rfl
  | cons f t ih => simp [resultsPosted, ih]

lemma getFileEvents_map_getFile (files : List FileRec) :
    getFileEvents (files.map fun f => Event.getFile f.id) = files.map (fun f => f.id) := by
  induction files with
  | nil => rfl
  | cons f t ih =>
      simp only [List.map_cons, getFileEvents, List.filterMap_cons]
      simp only [getFileEvents] at ih
      rw [ih]

/-! ### Invariants of the file-transfer helpers -/

lemma writeDownloads_state (files : List FileRec) (path : List String) (m : M) :
    (outDM (writeDownloads files path m)).store = m.store ∧
    (outDM (writeDownloads files path m)).trace = m.trace ∧
    (outDM (writeDownloads files path m)).clock = m.clock ∧
    (outDM (writeDownloads files path m)).fs.dirs = m.fs.dirs ∧
    ∀ q, path.isPrefixOf q = false →
      (outDM (writeDownloads files path m)).fs.fileExists q = m.fs.fileExists q := by
  induction files generalizing m with
  | nil => exact ⟨rfl, rfl, rfl, rfl, fun _ _ => rfl⟩
  | cons f rest ih =>
      have hpre : path.isPrefixOf
          ((match f.path with | some p => path ++ [p] | none => path) ++ [f.name]) = true := by
        cases hfp : f.path with
        | none => exact isPrefixOf_append_self path [f.name]
        | some p =>
            rw [List.append_assoc]
            exact isPrefixOf_append_self path ([p] ++ [f.name])
      cases hd : FS.dirExists m.fs (match f.path with | some p => path ++ [p] | none => path) with
      | false =>
          simp [writeDownloads, hd, outDM]
      | true =>
          obtain ⟨k1, k2, k3, k4, k5⟩ := ih { m with fs := m.fs.writeFile ((match f.path with | some p => path ++ [p] | none => path) ++ [f.name]) }
          simp only [writeDownloads, hd, if_true]
          refine ⟨k1, k2, k3, k4, fun q hq => (k5 q hq).trans ?_⟩
          have hne : (((match f.path with | some p => path ++ [p] | none => path) ++ [f.name]) == q)
              = false := by
            cases hbeq : ((match f.path with | some p => path ++ [p] | none => path) ++ [f.name]) == q with
            | false => rfl
            | true =>
                exfalso
                have heq := eq_of_beq hbeq
                rw [heq] at hpre
                rw [hq] at hpre
                exact Bool.false_ne_true hpre
          simp [FS.writeFile, FS.fileExists, List.any_cons, hne]

lemma collectUploadFiles_ok (fs : FS) (paths : List (List String))
    (h : ∀ p ∈ paths, fs.fileExists p = true) :
    collectUploadFiles fs paths = .ok paths := by
  induction paths with
  | nil => rfl
  | cons p rest ih =>
      have hp : fs.fileExists p = true := h p (List.mem_cons_self p rest)
      have hpe : fs.pathExists p = true := by
        simp [FS.pathExists, hp]
      have hrest := ih (fun q hq => h q (List.mem_cons_of_mem p hq))
      simp [collectUploadFiles, hpe, hp, hrest]

lemma mem_listDirFiles {fs : FS} {p q : List String}
    (h : q ∈ fs.listDirFiles p) : fs.fileExists q = true := by
  simp only [FS.listDirFiles] at h
  exact any_beq_of_mem (List.mem_of_mem_filter h)

lemma upload_files_listDir (env : Env) (m : M) (p : List String) :
    ∃ ids m', upload_files env (m.fs.listDirFiles p) m = .ok (ids, m') ∧
      m'.store = m.store ∧ m'.clock = m.clock ∧ m'.fs = m.fs ∧
      jobReports m'.trace = jobReports m.trace ∧
      resultsPosted m'.trace = resultsPosted m.trace := by
  have hc : collectUploadFiles m.fs (m.fs.listDirFiles p) = .ok (m.fs.listDirFiles p) :=
    collectUploadFiles_ok _ _ (fun q hq => mem_listDirFiles hq)
  have hjr : jobReports (m.trace ++ [Event.postFile]) = jobReports m.trace := by
    rw [jobReports_append]
    simp [jobReports]
  have hrp : resultsPosted (m.trace ++ [Event.postFile]) = resultsPosted m.trace := by
    rw [resultsPosted_append]
    simp [resultsPosted]
  unfold upload_files
  rw [hc]
  by_cases he : (m.fs.listDirFiles p).isEmpty = true
  · exact ⟨[], m, by simp [he], rfl, rfl, rfl, rfl, rfl⟩
  · by_cases hr : env.uploadPostRaises = true
    · exact ⟨[], { m with trace := m.trace ++ [Event.postFile] },
        by simp [he, hr], rfl, rfl, rfl, hjr, hrp⟩
    · by_cases ha : env.uploadAccepted = true
      · exact ⟨env.assignedIds, { m with trace := m.trace ++ [Event.postFile] },
          by simp [he, hr, ha], rfl, rfl, rfl, hjr, hrp⟩
      · exact ⟨[], { m with trace := m.trace ++ [Event.postFile] },
          by simp [he, hr, ha], rfl, rfl, rfl, hjr, hrp⟩

/-! ### Behaviour of the `finally` block -/

lemma runFinally_unbound (env : Env) (i o : List String) (l : Locals) (m : M)
    (hs : l.success = none) :
    runFinally env i o l m = .error { m with fs := (m.fs.rmtree i).rmtree o } := by
  unfold runFinally
  rw [hs]

lemma runFinally_fs (env : Env) (i o : List String) (l : Locals) (m : M) :
    (finalM (runFinally env i o l m)).fs = (m.fs.rmtree i).rmtree o := by
  unfold runFinally
  cases hs : l.success with
  | none => simp [finalM]
  | some b =>
      cases he : l.error with
      | none => simp [finalM]
      | some e =>
          cases hf : l.file_ids with
          | none => simp [finalM]
          | some ids =>
              simp only [upload_result, set_job_finished, set_job_state,
                set_node_idle, set_node_state]
              by_cases h1 : env.postResultOk = true <;>
                by_cases h2 : env.putJobStateOk JobState.FINISHED = true <;>
                  by_cases h3 : env.putStateOk NodeState.IDLE = true <;>
                    simp [h1, h2, h3, finalM]

lemma runFinally_resultsPosted (env : Env) (i o : List String) (l : Locals) (m : M)
    {b : Bool} {e : Option String} {ids : List String}
    (hs : l.success = some b) (he : l.error = some e) (hf : l.file_ids = some ids) :
    resultsPosted (finalM (runFinally env i o l m)).trace =
      resultsPosted m.trace ++
        [{ job_id := env.job.id
           execution_time := (l.end_time : Int) - (l.start_time : Int)
           success := b
           error := e
           output := procStdout l ++ "\n" ++ procStderr l
           file_ids := ids }] := by
  unfold runFinally
  rw [hs, he, hf]
  simp only [upload_result, set_job_finished, set_job_state,
    set_node_idle, set_node_state]
  by_cases h1 : env.postResultOk = true <;>
    by_cases h2 : env.putJobStateOk JobState.FINISHED = true <;>
      by_cases h3 : env.putStateOk NodeState.IDLE = true <;>
        simp [h1, h2, h3, finalM, resultsPosted_append, resultsPosted]

lemma runFinally_ok_chain (env : Env) (i o : List String) (l : Locals) (m : M)
    {b : Bool} {e : Option String} {ids : List String}
    (hs : l.success = some b) (he : l.error = some e) (hf : l.file_ids = some ids)
    (hPR : env.postResultOk = true) (hFd : env.putJobStateOk JobState.FINISHED = true)
    (hI : env.putStateOk NodeState.IDLE = true) :
    okE (runFinally env i o l m) = true ∧
    (finalM (runFinally env i o l m)).store = NodeState.IDLE ∧
    jobReports (finalM (runFinally env i o l m)).trace =
      jobReports m.trace ++ [JobState.FINISHED] := by
  unfold runFinally
  rw [hs, he, hf]
  simp only [upload_result, set_job_finished, set_job_state,
    set_node_idle, set_node_state]
  simp [hPR, hFd, hI, okE, finalM, jobReports_append, jobReports]

lemma dirs_foldl_writeFile (names : List String) (fs : FS) (o : List String) :
    (names.foldl (fun acc n => acc.writeFile (o ++ [n])) fs).dirs = fs.dirs := by
  induction names generalizing fs with
  | nil => rfl
  | cons n rest ih =>
      rw [List.foldl_cons, ih]
      rfl

lemma runExc_facts (msg : String) (l : Locals) (m : M) :
    ((runExc msg l m).1).success = some false ∧
    ((runExc msg l m).1).error = some (some msg) ∧
    ((runExc msg l m).1).file_ids = some [] ∧
    ((runExc msg l m).2).trace = m.trace ∧
    ((runExc msg l m).2).store = m.store := by
  unfold runExc
  by_cases ht : l.end_time = 0 <;> simp [ht, time_call]


lemma ensureOutputAndUpload_normal (env : Env) (l3 : Locals) (outputPath : List String)
    (m6 : M) (J : List JobState)
    (hb : ∃ b, l3.success = some b) (he : ∃ e, l3.error = some e)
    (hJ : jobReports m6.trace = J) :
    ∃ l' m', ensureOutputAndUpload env l3 outputPath m6 = .normal l' m' ∧
      (∃ b, l'.success = some b) ∧ (∃ e, l'.error = some e) ∧
      (∃ ids, l'.file_ids = some ids) ∧ jobReports m'.trace = J := by
  unfold ensureOutputAndUpload
  by_cases hc : m6.fs.pathExists outputPath = true
  · obtain ⟨ids, m8, hup, _, _, _, hjr8, _⟩ := upload_files_listDir env m6 outputPath
    rw [if_pos hc]
    simp only [hup]
    exact ⟨_, _, rfl, hb, he, ⟨ids, rfl⟩, by rw [hjr8, hJ]⟩
  · obtain ⟨ids, m8, hup, _, _, _, hjr8, _⟩ :=
      upload_files_listDir env { m6 with fs := m6.fs.mkdir outputPath } outputPath
    rw [if_neg hc]
    simp only [hup]
    refine ⟨_, _, rfl, hb, he, ⟨ids, rfl⟩, ?_⟩
    rw [hjr8]
    exact hJ

lemma download_files_trace (env : Env) (files : List FileRec) (path : List String) (m : M) :
    jobReports (outDM (download_files env files path m)).trace = jobReports m.trace ∧
    (outDM (download_files env files path m)).store = m.store := by
  unfold download_files
  cases hfind : files.find? (fun f => env.downloadFails f.id) with
  | some f =>
      simp [outDM, jobReports_append, jobReports_map_getFile]
  | none =>
      obtain ⟨hst, htr, _, _, _⟩ := writeDownloads_state files path
        { m with trace := m.trace ++ files.map (fun f => Event.getFile f.id) }
      simp only [htr, hst]
      simp [jobReports_append, jobReports_map_getFile]

lemma runAfterDownload_chars (env : Env) (appPath outputPath : List String)
    (l : Locals) (m2 : M) (hFg : env.putJobStateOk JobState.FINISHING = true) :
    (∃ msg l' m', runAfterDownload env appPath outputPath l m2 = .exc msg l' m' ∧
        jobReports m'.trace = jobReports m2.trace) ∨
    (∃ l' m', runAfterDownload env appPath outputPath l m2 = .normal l' m' ∧
        (∃ b, l'.success = some b) ∧ (∃ e, l'.error = some e) ∧
        (∃ ids, l'.file_ids = some ids) ∧
        jobReports m'.trace = jobReports m2.trace ++ [JobState.FINISHING]) := by
  unfold runAfterDownload
  cases hv : m2.fs.fileExists (appPath ++ [".venv", "bin", "python"]) with
  | false =>
      left
      exact ⟨_, _, _, rfl, rfl⟩
  | true =>
      right
      simp only [Bool.not_true, Bool.false_eq_true, if_false, time_call,
        set_job_finishing, set_job_state, hFg, if_true]
      apply ensureOutputAndUpload_normal
      · by_cases hec : (env.exitCode != 0) = true <;> simp [hec]
      · by_cases hec : (env.exitCode != 0) = true <;> simp [hec]
      · simp [jobReports_append, jobReports]

lemma runTryDownloadStep_chars (env : Env) (appPath inputPath outputPath : List String)
    (l : Locals) (m1 : M) (hFg : env.putJobStateOk JobState.FINISHING = true) :
    (∃ msg l' m', runTryDownloadStep env appPath inputPath outputPath l m1 = .exc msg l' m' ∧
        jobReports m'.trace = jobReports m1.trace) ∨
    (∃ l' m', runTryDownloadStep env appPath inputPath outputPath l m1 = .normal l' m' ∧
        (∃ b, l'.success = some b) ∧ (∃ e, l'.error = some e) ∧
        (∃ ids, l'.file_ids = some ids) ∧
        jobReports m'.trace = jobReports m1.trace ++ [JobState.FINISHING]) := by
  have hdt := download_files_trace env env.job.files inputPath m1
  unfold runTryDownloadStep
  cases hdl : download_files env env.job.files inputPath m1 with
  | error e =>
      obtain ⟨msg, m2⟩ := e
      rw [hdl] at hdt
      left
      exact ⟨msg, l, m2, rfl, hdt.1⟩
  | ok m2 =>
      rw [hdl] at hdt
      simp only [outDM] at hdt
      rcases runAfterDownload_chars env appPath outputPath l m2 hFg with
        ⟨msg, l', m', heq, hjr⟩ | ⟨l', m', heq, hb, he, hf, hjr⟩
      · left
        exact ⟨msg, l', m', heq, by rw [hjr, hdt.1]⟩
      · right
        exact ⟨l', m', heq, hb, he, hf, by rw [hjr, hdt.1]⟩

/-- Case analysis of the `try` block of `run_job` when the IDLE and
FINISHING transports succeed: either the app directory is missing and the
block early-returns with the node already set idle and its locals still
unassigned, or it raises with no job state yet reported, or it completes
normally with all result locals assigned and exactly one FINISHING report
added. -/
lemma runTry_chars (env : Env) (appPath inputPath outputPath : List String)
    (l : Locals) (m : M)
    (hI : env.putStateOk NodeState.IDLE = true)
    (hFg : env.putJobStateOk JobState.FINISHING = true) :
    (m.fs.pathExists appPath = false ∧
      ∃ m', runTry env appPath inputPath outputPath l m = .earlyRet l m' ∧
        m'.store = NodeState.IDLE ∧ jobReports m'.trace = jobReports m.trace) ∨
    (m.fs.pathExists appPath = true ∧
      ((∃ msg l' m', runTry env appPath inputPath outputPath l m = .exc msg l' m' ∧
          jobReports m'.trace = jobReports m.trace) ∨
       (∃ l' m', runTry env appPath inputPath outputPath l m = .normal l' m' ∧
          (∃ b, l'.success = some b) ∧ (∃ e, l'.error = some e) ∧
          (∃ ids, l'.file_ids = some ids) ∧
          jobReports m'.trace = jobReports m.trace ++ [JobState.FINISHING]))) := by
  cases hex : m.fs.pathExists appPath with
  | false =>
      left
      refine ⟨rfl, ?_⟩
      unfold runTry set_node_idle set_node_state
      rw [hex]
      simp only [Bool.not_false, if_true, hI]
      refine ⟨_, rfl, rfl, ?_⟩
      rw [jobReports_append]
      simp [jobReports]
  | true =>
      right
      refine ⟨rfl, ?_⟩
      unfold runTry
      rw [hex]
      simp only [Bool.not_true, Bool.false_eq_true, if_false]
      rcases runTryDownloadStep_chars env appPath inputPath outputPath l
          { m with fs := (((m.fs.rmtree inputPath).mkdir inputPath).rmtree outputPath).mkdir outputPath }
          hFg with
        ⟨msg, l', m', heq, hjr⟩ | ⟨l', m', heq, hb, he, hf, hjr⟩
      · left
        exact ⟨msg, l', m', heq, hjr⟩
      · right
        exact ⟨l', m', heq, hb, he, hf, hjr⟩

/-- When the BUSY transport succeeds, `run_job` always ends by executing
the `finally` block (with whatever locals and machine the `try`/`except`
part produced). -/
lemma run_job_eq_finally (env : Env) (h : env.putStateOk NodeState.BUSY = true) :
    ∃ l m2, run_job env =
      runFinally env ((env.appRoot ++ [env.job.appId]) ++ ["input"])
        ((env.appRoot ++ [env.job.appId]) ++ ["output"]) l m2 := by
  simp only [run_job, set_node_busy, set_node_state, initM, h, eq_self_iff_true,
    if_true, List.nil_append]
  exact ⟨_, _, rfl⟩

/-- Full behaviour of `run_job` when every coordinator transport succeeds:
the store always ends IDLE; on the missing-app path the operation crashes
(unbound locals in the `finally` block) having reported no job state at
all; otherwise it terminates normally reporting either `[FINISHED]` (an
exception before FINISHING) or `[FINISHING, FINISHED]`. -/
lemma run_job_summary (env : Env) (h : transportOk env = true) :
    (finalM (run_job env)).store = NodeState.IDLE ∧
    (appMissing env = true →
      okE (run_job env) = false ∧ jobReports (finalM (run_job env)).trace = []) ∧
    (appMissing env = false →
      okE (run_job env) = true ∧
      (jobReports (finalM (run_job env)).trace = [JobState.FINISHED] ∨
       jobReports (finalM (run_job env)).trace = [JobState.FINISHING, JobState.FINISHED])) := by
  simp only [transportOk, Bool.and_eq_true] at h
  obtain ⟨⟨⟨⟨⟨⟨⟨⟨⟨hB, hI⟩, hFg⟩, hFd⟩, hGA⟩, hAA⟩, hRA⟩, hRI⟩, hRU⟩, hPR⟩ := h
  simp only [run_job, set_node_busy, set_node_state, initM, hB, eq_self_iff_true,
    if_true, List.nil_append]
  rcases runTry_chars env (env.appRoot ++ [env.job.appId])
      ((env.appRoot ++ [env.job.appId]) ++ ["input"])
      ((env.appRoot ++ [env.job.appId]) ++ ["output"]) Locals.init
      { store := NodeState.BUSY, fs := env.fs0.mkdir env.appRoot,
        trace := [Event.putNodeState NodeState.BUSY], clock := env.clock }
      hI hFg with
    ⟨hex, m', heq, hst, hjr⟩ | ⟨hex, hcases⟩
  · -- missing-app path: early return, then crash on the unbound locals
    simp only [heq]
    rw [runFinally_unbound env _ _ Locals.init m' rfl]
    have hex' : (env.fs0.mkdir env.appRoot).pathExists (env.appRoot ++ [env.job.appId])
        = false := hex
    refine ⟨by simp [finalM, hst], ?_, ?_⟩
    · intro _
      refine ⟨rfl, ?_⟩
      have hjr' : jobReports m'.trace = [] := by
        simpa [jobReports] using hjr
      simpa [finalM] using hjr'
    · intro habs
      exfalso
      rw [appMissing, hex'] at habs
      simp at habs
  · have hex' : (env.fs0.mkdir env.appRoot).pathExists (env.appRoot ++ [env.job.appId])
        = true := hex
    rcases hcases with ⟨msg, l', m', heq, hjr⟩ | ⟨l', m', heq, hb, he, hf, hjr⟩
    · -- exception before FINISHING: except handler, then full finally chain
      simp only [heq]
      have hfacts := runExc_facts msg l' m'
      have hchain := runFinally_ok_chain env
        ((env.appRoot ++ [env.job.appId]) ++ ["input"])
        ((env.appRoot ++ [env.job.appId]) ++ ["output"])
        (runExc msg l' m').1 (runExc msg l' m').2
        hfacts.1 hfacts.2.1 hfacts.2.2.1 hPR hFd hI
      refine ⟨hchain.2.1, ?_, ?_⟩
      · intro habs
        exfalso
        rw [appMissing, hex'] at habs
        simp at habs
      · intro _
        refine ⟨hchain.1, Or.inl ?_⟩
        have htr2 : jobReports (runExc msg l' m').2.trace = [] := by
          rw [hfacts.2.2.2.1]
          simpa [jobReports] using hjr
        exact hchain.2.2.trans (by rw [htr2]; rfl)
    · -- normal completion: FINISHING then FINISHED
      simp only [heq]
      obtain ⟨b, hb⟩ := hb
      obtain ⟨e, he⟩ := he
      obtain ⟨ids, hf⟩ := hf
      have hchain := runFinally_ok_chain env
        ((env.appRoot ++ [env.job.appId]) ++ ["input"])
        ((env.appRoot ++ [env.job.appId]) ++ ["output"])
        l' m' hb he hf hPR hFd hI
      refine ⟨hchain.2.1, ?_, ?_⟩
      · intro habs
        exfalso
        rw [appMissing, hex'] at habs
        simp at habs
      · intro _
        refine ⟨hchain.1, Or.inr ?_⟩
        have htr2 : jobReports m'.trace = [JobState.FINISHING] := by
          simpa [jobReports] using hjr
        exact hchain.2.2.trans (by rw [htr2]; rfl)


/-- With all transports up, `install_app` terminates normally and leaves
the store IDLE, on every branch (already installed, provisioning success,
or caught provisioning failure). -/
lemma install_app_summary (env : Env) (h : transportOk env = true) :
    okE (install_app env) = true ∧
    (finalM (install_app env)).store = NodeState.IDLE := by
  simp only [transportOk, Bool.and_eq_true] at h
  obtain ⟨⟨⟨⟨⟨⟨⟨⟨⟨hB, hI⟩, hFg⟩, hFd⟩, hGA⟩, hAA⟩, hRA⟩, hRI⟩, hRU⟩, hPR⟩ := h
  simp only [install_app, set_node_busy, set_node_state, initM, get_app, hB, hGA,
    eq_self_iff_true, if_true, List.nil_append, List.cons_append]
  by_cases hex : (env.fs0.mkdir env.appRoot).pathExists (env.appRoot ++ [env.app.id]) = true
  · rw [if_pos hex]
    simp [add_app, hAA, set_node_idle, set_node_state, hI, okE, finalM]
  · rw [if_neg hex]
    cases hp : installProvision env (env.appRoot ++ [env.app.id])
        { store := NodeState.BUSY, fs := env.fs0.mkdir env.appRoot,
          trace := [Event.putNodeState NodeState.BUSY, Event.getAppQuery env.app.id],
          clock := env.clock } with
    | ok m2 =>
        simp only [hp]
        simp [add_app, hAA, set_node_idle, set_node_state, hI, okE, finalM]
    | error e =>
        obtain ⟨msg, m2⟩ := e
        simp only [hp]
        simp [report_failed_app_install, hRI, add_app, hAA, set_node_idle,
          set_node_state, hI, okE, finalM]

/-- With all transports up, `uninstall_app` terminates normally and leaves
the store IDLE, on every branch. -/
lemma uninstall_app_summary (env : Env) (appId : String) (h : transportOk env = true) :
    okE (uninstall_app env appId) = true ∧
    (finalM (uninstall_app env appId)).store = NodeState.IDLE := by
  simp only [transportOk, Bool.and_eq_true] at h
  obtain ⟨⟨⟨⟨⟨⟨⟨⟨⟨hB, hI⟩, hFg⟩, hFd⟩, hGA⟩, hAA⟩, hRA⟩, hRI⟩, hRU⟩, hPR⟩ := h
  simp only [uninstall_app, set_node_busy, set_node_state, initM, hB,
    eq_self_iff_true, if_true, List.nil_append]
  by_cases hex : (env.fs0.mkdir env.appRoot).pathExists (env.appRoot ++ [appId]) = true
  · simp only [hex, Bool.not_true, Bool.false_eq_true, if_false]
    by_cases hrm : env.rmRaises = true
    · simp [hrm, report_failed_app_uninstall, hRU, remove_app, hRA,
        set_node_idle, set_node_state, hI, okE, finalM]
    · simp [hrm, remove_app, hRA, set_node_idle, set_node_state, hI, okE, finalM]
  · simp only [Bool.not_eq_true] at hex
    simp [hex, set_node_idle, set_node_state, hI, okE, finalM]

/-- C10: when `run_job` fails before the subprocess start timestamp is
recorded (here: the `.venv/bin/python` entrypoint is missing), the reported
`Result.execution_time` equals `end_time - 0`, the absolute wall-clock
value at failure, which is non-negative but not the elapsed duration. -/
theorem early_failure_execution_time (env : Env)
    (hB : env.putStateOk NodeState.BUSY = true)
    (hex : (env.fs0.mkdir env.appRoot).pathExists (env.appRoot ++ [env.job.appId]) = true)
    (hfiles : env.job.files = [])
    (hvenv : env.fs0.fileExists ((env.appRoot ++ [env.job.appId]) ++ [".venv", "bin", "python"]) = false) :
    resultsPosted (finalM (run_job env)).trace =
      [{ job_id := env.job.id
         execution_time := (env.clock.headD 0 : Int)
         success := false
         error := some ".venv/bin/python does not exist"
         output := "\n"
         file_ids := [] }] ∧
    0 ≤ ((env.clock.headD 0 : Nat) : Int) := by
  have hpre_in : ((env.appRoot ++ [env.job.appId]) ++ ["input"]).isPrefixOf
      ((env.appRoot ++ [env.job.appId]) ++ [".venv", "bin", "python"]) = false := by
    rw [isPrefixOf_append_same]
    rfl
  have hpre_out : ((env.appRoot ++ [env.job.appId]) ++ ["output"]).isPrefixOf
      ((env.appRoot ++ [env.job.appId]) ++ [".venv", "bin", "python"]) = false := by
    rw [isPrefixOf_append_same]
    rfl
  have hv : (((((env.fs0.mkdir env.appRoot).rmtree
        ((env.appRoot ++ [env.job.appId]) ++ ["input"])).mkdir
        ((env.appRoot ++ [env.job.appId]) ++ ["input"])).rmtree
        ((env.appRoot ++ [env.job.appId]) ++ ["output"])).mkdir
        ((env.appRoot ++ [env.job.appId]) ++ ["output"])).fileExists
        ((env.appRoot ++ [env.job.appId]) ++ [".venv", "bin", "python"]) = false := by
    rw [FS.fileExists_mkdir, FS.fileExists_rmtree hpre_out, FS.fileExists_mkdir,
      FS.fileExists_rmtree hpre_in, FS.fileExists_mkdir]
    exact hvenv
  simp only [run_job, set_node_busy, set_node_state, initM, hB, eq_self_iff_true,
    if_true, List.nil_append, List.cons_append]
  simp only [runTry, hex, Bool.not_true, Bool.false_eq_true, if_false]
  simp only [runTryDownloadStep, download_files, hfiles, List.map_nil,
    List.append_nil, List.find?_nil, writeDownloads]
  simp only [runAfterDownload, hv, Bool.not_false, if_true]
  simp only [runExc, Locals.init, time_call, if_true]
  refine ⟨?_, Int.natCast_nonneg _⟩
  rw [runFinally_resultsPosted env _ _ _ _ rfl rfl rfl]
  simp [resultsPosted, procStdout, procStderr]

/-- C3: for every job run admitted by a successful BUSY transition, no file
remains under the app's `input/` or `output/` directory immediately after
`run_job` finishes — the `finally` block removes both trees before
anything else, on success, business failure and crash alike. -/
theorem run_job_cleanup_invariant (env : Env)
    (h : env.putStateOk NodeState.BUSY = true) :
    FS.filesUnder (finalM (run_job env)).fs
      ((env.appRoot ++ [env.job.appId]) ++ ["input"]) = [] ∧
    FS.filesUnder (finalM (run_job env)).fs
      ((env.appRoot ++ [env.job.appId]) ++ ["output"]) = [] := by
  obtain ⟨l, m2, heq⟩ := run_job_eq_finally env h
  rw [heq, runFinally_fs]
  exact ⟨FS.filesUnder_rmtree_of_nil _ (FS.filesUnder_rmtree_self _ _),
    FS.filesUnder_rmtree_self _ _⟩

/-- Witness for C3 at a concrete environment that produces output files. -/
theorem run_job_cleanup_invariant_witness :
    envInstalled.putStateOk NodeState.BUSY = true ∧
    (FS.filesUnder (finalM (run_job envInstalled)).fs
        ((envInstalled.appRoot ++ [envInstalled.job.appId]) ++ ["input"]) = [] ∧
     FS.filesUnder (finalM (run_job envInstalled)).fs
        ((envInstalled.appRoot ++ [envInstalled.job.appId]) ++ ["output"]) = []) :=
  ⟨rfl, run_job_cleanup_invariant envInstalled rfl⟩

/-- C5: whenever the store is BUSY, the install, uninstall and create-job
endpoints all answer 409 Conflict with the store unchanged and no
background work spawned. -/
theorem busy_gate_conflict (st : WebStore) (appId : String) (job : JobRec)
    (h : st.state = NodeState.BUSY) :
    Web.install_app st appId = (409, st, []) ∧
    Web.uninstall_app st appId = (409, st, []) ∧
    Web.create_job st job = (409, st, []) := by
  simp [Web.install_app, Web.uninstall_app, Web.create_job, fail_on_busy, h]

/-- Witness for C5 at a concrete busy store. -/
theorem busy_gate_conflict_witness :
    stBusy.state = NodeState.BUSY ∧
    (Web.install_app stBusy "a" = (409, stBusy, []) ∧
     Web.uninstall_app stBusy "a" = (409, stBusy, []) ∧
     Web.create_job stBusy jobNew = (409, stBusy, [])) :=
  ⟨rfl, busy_gate_conflict stBusy "a" jobNew rfl⟩

/-- C6 counterexample: with the node IDLE, an app installed and a stale
job still held in the Store, `POST /job` answers 201 and overwrites the
stored job — not the 409 the claim requires when a job already exists. -/
theorem create_job_existing_job_not_conflict :
    Web.create_job stIdleWithJob jobNew =
      (201, { state := NodeState.IDLE, job := some jobNew, appIds := ["a"] },
        [WebEffect.spawnRun jobNew]) ∧
    (201 : Nat) ≠ 409 :=
  ⟨rfl, by decide⟩

/-- C6 amended: `POST /job` answers 409 exactly when the node is BUSY, 404
when it is not BUSY and the job's app is not installed, and 201 otherwise —
an existing job in the Store is never checked and is overwritten. -/
theorem create_job_status_amended (st : WebStore) (job : JobRec) :
    (st.state = NodeState.BUSY → Web.create_job st job = (409, st, [])) ∧
    (st.state ≠ NodeState.BUSY → st.appIds.contains job.appId = false →
      Web.create_job st job = (404, st, [])) ∧
    (st.state ≠ NodeState.BUSY → st.appIds.contains job.appId = true →
      Web.create_job st job =
        (201, { st with job := some job }, [WebEffect.spawnRun job])) := by
  refine ⟨fun h => by simp [Web.create_job, fail_on_busy, h], fun h hc => ?_, fun h hc => ?_⟩
  · cases hst : st.state with
    | BUSY => exact absurd hst h
    | IDLE =>
        simp [Web.create_job, fail_on_busy, hst, hc]
        simpa using hc
  · cases hst : st.state with
    | BUSY => exact absurd hst h
    | IDLE =>
        simp [Web.create_job, fail_on_busy, hst, hc]
        simpa using hc

/-- Witness for the amended C6: a concrete admitted job yields 201 and the
stored job is replaced. -/
theorem create_job_status_amended_witness :
    Web.create_job stIdleWithJob jobNew =
      (201, { stIdleWithJob with job := some jobNew }, [WebEffect.spawnRun jobNew]) :=
  (create_job_status_amended stIdleWithJob jobNew).2.2 (by decide) (by decide)

/-- C8: in a batch download, the `GET /file/id` transfer is issued for
every file of the batch regardless of failures in the others (thread_map
submits them all up front), and when any transfer fails the enclosing
operation sees the failure as an exception only after the whole batch has
been issued. -/
theorem download_failure_isolation (env : Env) (files : List FileRec)
    (path : List String) (m : M) :
    getFileEvents (outDM (download_files env files path m)).trace =
      getFileEvents m.trace ++ files.map (fun f => f.id) ∧
    ((files.any fun f => env.downloadFails f.id) = true →
      ∃ msg m', download_files env files path m = .error (msg, m')) := by
  unfold download_files
  cases hfind : files.find? (fun f => env.downloadFails f.id) with
  | some f =>
      refine ⟨?_, fun _ => ⟨_, _, rfl⟩⟩
      simp [outDM, getFileEvents_append, getFileEvents_map_getFile]
  | none =>
      constructor
      · obtain ⟨_, htr, _, _, _⟩ := writeDownloads_state files path
          { m with trace := m.trace ++ files.map (fun f => Event.getFile f.id) }
        rw [htr]
        simp [getFileEvents_append, getFileEvents_map_getFile]
      · intro hany
        exfalso
        obtain ⟨f, hmem, hfail⟩ := List.any_eq_true.mp hany
        have hnone := List.find?_eq_none.mp hfind f hmem
        simp [hfail] at hnone

/-- Witness for C8: two files, the first transfer failing — both GETs are
issued and the batch raises. -/
theorem download_failure_isolation_witness :
    getFileEvents (outDM (download_files envDl dl2 ["r", "a", "input"] m9)).trace =
      getFileEvents m9.trace ++ dl2.map (fun f => f.id) ∧
    (∃ msg m', download_files envDl dl2 ["r", "a", "input"] m9 = .error (msg, m')) :=
  ⟨(download_failure_isolation envDl dl2 ["r", "a", "input"] m9).1,
   (download_failure_isolation envDl dl2 ["r", "a", "input"] m9).2 (by decide)⟩

/-- C4: installing an app whose directory already exists issues no file
download, notifies the coordinator that the app is present (`add_app`),
returns success, leaves the store IDLE, and leaves the filesystem
untouched apart from ensuring the app root exists. -/
theorem install_already_installed (env : Env) (h : transportOk env = true)
    (hex : (env.fs0.mkdir env.appRoot).pathExists (env.appRoot ++ [env.app.id]) = true) :
    okE (install_app env) = true ∧
    (finalM (install_app env)).store = NodeState.IDLE ∧
    getFileEvents (finalM (install_app env)).trace = [] ∧
    Event.putAddApp env.app.id ∈ (finalM (install_app env)).trace ∧
    (finalM (install_app env)).fs = env.fs0.mkdir env.appRoot := by
  simp only [transportOk, Bool.and_eq_true] at h
  obtain ⟨⟨⟨⟨⟨⟨⟨⟨⟨hB, hI⟩, hFg⟩, hFd⟩, hGA⟩, hAA⟩, hRA⟩, hRI⟩, hRU⟩, hPR⟩ := h
  simp only [install_app, set_node_busy, set_node_state, initM, get_app, hB, hGA,
    eq_self_iff_true, if_true, List.nil_append, List.cons_append]
  rw [if_pos hex]
  simp [add_app, hAA, set_node_idle, set_node_state, hI, okE, finalM, getFileEvents]

/-- Witness for C4 at a concrete installed app. -/
theorem install_already_installed_witness :
    transportOk envInstalled = true ∧
    (okE (install_app envInstalled) = true ∧
     (finalM (install_app envInstalled)).store = NodeState.IDLE ∧
     getFileEvents (finalM (install_app envInstalled)).trace = [] ∧
     Event.putAddApp envInstalled.app.id ∈ (finalM (install_app envInstalled)).trace ∧
     (finalM (install_app envInstalled)).fs = envInstalled.fs0.mkdir envInstalled.appRoot) :=
  ⟨rfl, install_already_installed envInstalled rfl (by decide)⟩

/-- C7: when the app directory is absent and the provisioning `try` block
of `install_app` raises (venv creation, file download, or dependency
install), the exception is caught and reported to the coordinator as an
install error carrying the exception text, and the operation still marks
the app added and returns the node to IDLE. -/
theorem install_failure_best_effort (env : Env) (msg : String) (m2 : M)
    (h : transportOk env = true)
    (hex : (env.fs0.mkdir env.appRoot).pathExists (env.appRoot ++ [env.app.id]) = false)
    (hp : installProvision env (env.appRoot ++ [env.app.id]) (installAdmitted env) =
      .error (msg, m2)) :
    okE (install_app env) = true ∧
    (finalM (install_app env)).store = NodeState.IDLE ∧
    Event.putAppError env.app.id msg "INSTALL_ERROR" ∈ (finalM (install_app env)).trace ∧
    Event.putAddApp env.app.id ∈ (finalM (install_app env)).trace := by
  simp only [transportOk, Bool.and_eq_true] at h
  obtain ⟨⟨⟨⟨⟨⟨⟨⟨⟨hB, hI⟩, hFg⟩, hFd⟩, hGA⟩, hAA⟩, hRA⟩, hRI⟩, hRU⟩, hPR⟩ := h
  simp only [installAdmitted] at hp
  simp only [install_app, set_node_busy, set_node_state, initM, get_app, hB, hGA,
    eq_self_iff_true, if_true, List.nil_append, List.cons_append]
  rw [if_neg (by simp [hex])]
  simp only [hp]
  simp [report_failed_app_install, hRI, add_app, hAA, set_node_idle, set_node_state,
    hI, okE, finalM]

/-- Witness for C7: venv creation raising at a concrete fresh app. -/
theorem install_failure_best_effort_witness :
    installProvision envVenvRaises (envVenvRaises.appRoot ++ [envVenvRaises.app.id])
        (installAdmitted envVenvRaises) = .error ("venv boom", mProv) ∧
    (okE (install_app envVenvRaises) = true ∧
     (finalM (install_app envVenvRaises)).store = NodeState.IDLE ∧
     Event.putAppError envVenvRaises.app.id "venv boom" "INSTALL_ERROR" ∈
       (finalM (install_app envVenvRaises)).trace ∧
     Event.putAddApp envVenvRaises.app.id ∈ (finalM (install_app envVenvRaises)).trace) :=
  ⟨rfl, install_failure_best_effort envVenvRaises "venv boom" mProv rfl (by decide) rfl⟩

/-- C1 counterexample: when the `crud.get_app` coordinator call raises —
it sits between `set_node_busy()` and any `try` block — `install_app`
crashes and the store is left BUSY forever, so the release of the BUSY
state is not guaranteed on every exit path. -/
theorem install_app_crash_leaves_busy :
    okE (install_app envGetAppFails) = false ∧
    (finalM (install_app envGetAppFails)).store = NodeState.BUSY :=
  ⟨rfl, rfl⟩

/-- C1 amended: provided every coordinator transport succeeds, each of the
three admitted operations returns the store to IDLE on every exit path —
success, caught business failure, and even the crash of `run_job`'s
`finally` block on the missing-app path (the IDLE write there happens
before the crash).  A raising transport can instead strand the store BUSY
(see the counterexample). -/
theorem guaranteed_release_amended (env : Env) (appId : String)
    (h : transportOk env = true) :
    (finalM (install_app env)).store = NodeState.IDLE ∧
    (finalM (uninstall_app env appId)).store = NodeState.IDLE ∧
    (finalM (run_job env)).store = NodeState.IDLE :=
  ⟨(install_app_summary env h).2, (uninstall_app_summary env appId h).2,
   (run_job_summary env h).1⟩

/-- Witness for the amended C1 at a concrete environment. -/
theorem guaranteed_release_amended_witness :
    transportOk envInstalled = true ∧
    ((finalM (install_app envInstalled)).store = NodeState.IDLE ∧
     (finalM (uninstall_app envInstalled "a")).store = NodeState.IDLE ∧
     (finalM (run_job envInstalled)).store = NodeState.IDLE) :=
  ⟨rfl, guaranteed_release_amended envInstalled "a" rfl⟩

/-- C2 counterexample: a fully successful admitted run reports the
sequence FINISHING, FINISHED — WORKING is never reported by `run_job`, so
the claimed sequence WORKING, FINISHING, FINISHED is wrong. -/
theorem job_states_reported_without_working :
    okE (run_job envInstalled) = true ∧
    jobReports (finalM (run_job envInstalled)).trace =
      [JobState.FINISHING, JobState.FINISHED] ∧
    jobReports (finalM (run_job envInstalled)).trace ≠
      [JobState.WORKING, JobState.FINISHING, JobState.FINISHED] := by
  have h2 : jobReports (finalM (run_job envInstalled)).trace =
      [JobState.FINISHING, JobState.FINISHED] := rfl
  exact ⟨rfl, h2, by rw [h2]; decide⟩

/-- C2 amended: with all transports up, an admitted run reports exactly
FINISHING, FINISHED when it reaches process completion, only FINISHED when
an exception fires before FINISHING, and nothing at all on the
missing-app path (the `finally` block crashes on unbound locals before any
job-state report, so FINISHED is not reached there). -/
theorem job_state_reports_amended (env : Env) (h : transportOk env = true) :
    (appMissing env = true → jobReports (finalM (run_job env)).trace = []) ∧
    (appMissing env = false →
      jobReports (finalM (run_job env)).trace = [JobState.FINISHED] ∨
      jobReports (finalM (run_job env)).trace =
        [JobState.FINISHING, JobState.FINISHED]) :=
  ⟨fun hm => ((run_job_summary env h).2.1 hm).2,
   fun hm => (run_job_summary env h).2.2 hm |>.2⟩

/-- Witness for the amended C2, at an environment whose app is installed. -/
theorem job_state_reports_amended_witness :
    appMissing envInstalled = false ∧
    (jobReports (finalM (run_job envInstalled)).trace = [JobState.FINISHED] ∨
     jobReports (finalM (run_job envInstalled)).trace =
       [JobState.FINISHING, JobState.FINISHED]) :=
  ⟨rfl, (job_state_reports_amended envInstalled rfl).2 rfl⟩

/-- C9: the missing-file guard of `upload_files` is dead code (`not
path.exists() and path.is_file()` is never true), so a missing path
reaches `open(path, "rb")` and the raised `FileNotFoundError` aborts the
whole batch — while an empty batch still yields `[]` without error. -/
theorem upload_missing_file_aborts_batch :
    errU (upload_files env0 [["r", "a", "output", "missing.txt"]] m9) = true ∧
    upload_files env0 [] m9 = .ok ([], m9) :=
  ⟨rfl, rfl⟩

/-- Witness for C10 at a concrete installed-but-venv-less app: the posted
result carries the absolute clock value 10 as execution time. -/
theorem early_failure_execution_time_witness :
    0 ≤ ((envVenvMissing.clock.headD 0 : Nat) : Int) ∧
    resultsPosted (finalM (run_job envVenvMissing)).trace =
      [{ job_id := envVenvMissing.job.id
         execution_time := (envVenvMissing.clock.headD 0 : Int)
         success := false
         error := some ".venv/bin/python does not exist"
         output := "\n"
         file_ids := [] }] :=
  ⟨(early_failure_execution_time envVenvMissing rfl (by decide) rfl (by decide)).2,
   (early_failure_execution_time envVenvMissing rfl (by decide) rfl (by decide)).1⟩
